import Mathlib

/-!
Verification of the feed-ingestion core of the rss_reader repository
(src/backend/scripts/fetch_rss.py, src/backend/app/metrics.py,
src/backend/app/main.py, src/backend/app/db.py) against its
natural-language specification.

Strings are modelled as `List Char` (`"...".data` for literals); Python
string helpers (`strip`, `split`, `zfill`, `isdigit`, truthiness) are
given faithful list-level translations restricted to the ASCII character
classes that appear in feed data.  SQLite column defaults and the two
UNIQUE constraints live in schema.sql, which is not among the source
files; every definition that relies on one says so in its doc comment
and follows the spec's data model.  Network fetches, the dateutil
calendar parser, the SHA-256 digest, the auto-block threshold predicate
and the scraped HTML page are the effectful or out-of-repo collaborators;
each is a parameter of the function that consumes it.
-/

namespace RssReader

/-- Strings of the modelled program: Python `str` as a list of characters. -/
abbrev Str := List Char

/-- Python whitespace test used by `str.strip()`, restricted to the ASCII
whitespace characters (space, tab, newline, carriage return) that occur in
feed data; the source relies on Python's Unicode definition. -/
def isPySpace (c : Char) : Bool := c == ' ' || c == '\t' || c == '\n' || c == '\r'

/-- Python `s.strip()`: drop leading and trailing whitespace. -/
def pyStrip (s : Str) : Str :=
  ((s.dropWhile isPySpace).reverse.dropWhile isPySpace).reverse

/-- Python truthiness of an optional string: `None` and `""` are falsy. -/
def pyTruthy (a : Option Str) : Bool :=
  match a with
  | some t => !t.isEmpty
  | none => false

/-- Python `a or b` on optional strings: `a` when truthy, else `b`. -/
def pyOr (a b : Option Str) : Option Str :=
  if pyTruthy a then a else b

/-- Python `s.isdigit()` restricted to ASCII digits: non-empty and all digits. -/
def pyIsdigit (s : Str) : Bool := !s.isEmpty && s.all Char.isDigit

/-- Python `s.zfill(width)`: left-pad with `0` to `width`, keeping a leading
sign character in front of the inserted zeros. -/
def pyZfill (width : Nat) (s : Str) : Str :=
  match s with
  | [] => List.replicate width '0'
  | c :: rest =>
    if c == '+' || c == '-' then c :: (List.replicate (width - 1 - rest.length) '0' ++ rest)
    else List.replicate (width - s.length) '0' ++ s

/-- Python `s.split(sep)` for a one-character separator: every occurrence
splits, empty parts are kept, and the empty string yields `[""]`. -/
def pySplit (sep : Char) : Str → List Str
  | [] => [[]]
  | c :: rest =>
    if c == sep then [] :: pySplit sep rest
    else
      match pySplit sep rest with
      | [] => [[c]]
      | p :: ps => (c :: p) :: ps

/-- SQLite BINARY collation as a boolean order on text: codepoint-lexicographic
comparison (UTF-8 byte order and codepoint order agree). -/
def strLE : Str → Str → Bool
  | [], _ => true
  | _ :: _, [] => false
  | a :: xs, b :: ys =>
    if a.toNat < b.toNat then true
    else if b.toNat < a.toNat then false
    else strLE xs ys

/-- ASCII lower-casing of one character, the case folding SQLite's default
LIKE applies. -/
def asciiLower (c : Char) : Char :=
  if 'A' ≤ c ∧ c ≤ 'Z' then Char.ofNat (c.toNat + 32) else c

/-! ## Link canonicalizer and fingerprinter (fetch_rss.py) -/

/-- Function `normalize_link` of fetch_rss.py: `link.strip()`, then, when the
stripped link ends with `/`, Python `rstrip("/")` — which removes every
trailing slash. -/
def normalize_link (link : Str) : Str :=
  let normalized := pyStrip link
  if normalized.getLast? = some '/' then (normalized.reverse.dropWhile (· == '/')).reverse
  else normalized

/-- Function `fingerprint_for_link` of fetch_rss.py: the SHA-256 hex digest of
the canonical link's UTF-8 bytes.  The digest itself decides no claim here, so
it is the parameter `sha`; only that it is one fixed deterministic function of
the canonical link matters. -/
def fingerprint_for_link (sha : Str → Str) (link : Str) : Str :=
  sha (normalize_link link)

/-! ## Feed entry extractor (fetch_rss.py) -/

/-- Shallow model of `xml.etree.ElementTree.Element`: tag, attribute list, the
text before the first child, and the direct children in document order. -/
inductive XmlElement : Type where
  | node (tag : Str) (attrs : List (Str × Str)) (text : Option Str) (children : List XmlElement)

/-- Tag of an element. -/
def XmlElement.tag : XmlElement → Str
  | .node t _ _ _ => t

/-- Attribute list of an element. -/
def XmlElement.attrs : XmlElement → List (Str × Str)
  | .node _ a _ _ => a

/-- Text of an element (Python `element.text`, `None` when absent). -/
def XmlElement.text : XmlElement → Option Str
  | .node _ _ x _ => x

/-- Direct children of an element. -/
def XmlElement.children : XmlElement → List XmlElement
  | .node _ _ _ cs => cs

/-- Python `element.attrib.get(name)`: first binding of the attribute. -/
def attr_get (attrs : List (Str × Str)) (name : Str) : Option Str :=
  (attrs.find? (fun p => p.1 == name)).map (fun p => p.2)

/-- Function `local_name` of fetch_rss.py: `tag.rsplit("}", 1)[-1]`, everything
after the last `}` (the whole tag when there is none). -/
def local_name (tag : Str) : Str :=
  (tag.reverse.takeWhile (fun c => c != '}')).reverse

/-- Value a child contributes through its text in `text_from_child`:
`child.text` when truthy and non-blank, stripped. -/
def child_text_value (c : XmlElement) : Option Str :=
  match c.text with
  | some t => if !t.isEmpty && !(pyStrip t).isEmpty then some (pyStrip t) else none
  | none => none

/-- Value a child contributes through its `href` attribute in
`text_from_child`: present and truthy, stripped. -/
def child_href_value (c : XmlElement) : Option Str :=
  match attr_get c.attrs ("href").data with
  | some h => if !h.isEmpty then some (pyStrip h) else none
  | none => none

/-- Loop body of `text_from_child` of fetch_rss.py over the direct children:
on a child whose local name matches, return its non-blank stripped text, else
its truthy stripped `href`; a matching child yielding neither lets the loop
continue with the later siblings. -/
def text_from_child_go (name : Str) : List XmlElement → Option Str
  | [] => none
  | c :: rest =>
    if local_name c.tag == name then
      match child_text_value c with
      | some v => some v
      | none =>
        match child_href_value c with
        | some v => some v
        | none => text_from_child_go name rest
    else text_from_child_go name rest

/-- Function `text_from_child` of fetch_rss.py. -/
def text_from_child (e : XmlElement) (name : Str) : Option Str :=
  text_from_child_go name e.children

/-- Function `normalize_creator_tag` of fetch_rss.py:
`creator_tag.split(":", 1)[-1].strip()` — the part after the first colon when
one exists, else the whole string, stripped. -/
def normalize_creator_tag (creator_tag : Str) : Str :=
  pyStrip (if creator_tag.contains ':' then (creator_tag.dropWhile (fun c => c != ':')).tail
           else creator_tag)

/-- The `name` attribute fallback inside `extract_creator_name`: present,
truthy and non-blank, stripped. -/
def creator_attr_value (c : XmlElement) : Option Str :=
  match attr_get c.attrs ("name").data with
  | some a => if !a.isEmpty && !(pyStrip a).isEmpty then some (pyStrip a) else none
  | none => none

/-- Loop body of `extract_creator_name` of fetch_rss.py: on a child whose
local name matches the configured tag, return its non-blank stripped text,
else the truthy result of `text_from_child child "name"`, else its non-blank
`name` attribute; a matching child yielding none of these lets the loop
continue. -/
def extract_creator_name_go (tag_name : Str) : List XmlElement → Option Str
  | [] => none
  | c :: rest =>
    if local_name c.tag == tag_name then
      match child_text_value c with
      | some v => some v
      | none =>
        match text_from_child c ("name").data with
        | some nested =>
          if !nested.isEmpty then some nested
          else
            match creator_attr_value c with
            | some v => some v
            | none => extract_creator_name_go tag_name rest
        | none =>
          match creator_attr_value c with
          | some v => some v
          | none => extract_creator_name_go tag_name rest
    else extract_creator_name_go tag_name rest

/-- Function `extract_creator_name` of fetch_rss.py. -/
def extract_creator_name (entry : XmlElement) (creator_tag : Str) : Option Str :=
  extract_creator_name_go (normalize_creator_tag creator_tag) entry.children

/-- Python `root.iter()`: the element itself followed by all descendants in
document order. -/
def xmlIter : XmlElement → List XmlElement
  | .node t a x cs => .node t a x cs :: (cs.attach.map (fun c => xmlIter c.1)).flatten
decreasing_by
  have h := List.sizeOf_lt_of_mem c.2
  simp only [XmlElement.node.sizeOf_spec]
  omega

/-- Function `iter_entries` of fetch_rss.py: all elements with local name
`item`; when there are none, all elements with local name `entry`. -/
def iter_entries (root : XmlElement) : List XmlElement :=
  let entries := (xmlIter root).filter (fun e => local_name e.tag == ("item").data)
  if !entries.isEmpty then entries
  else (xmlIter root).filter (fun e => local_name e.tag == ("entry").data)

/-! ## Date normalizer (fetch_rss.py) -/

/-- One iteration of the loop in `fallback_date`: separator `sep` occurs in
the string, the split has at least three parts, and the first three are
numeric after stripping. -/
def date_tokens_ok (sep : Char) (s : Str) : Bool :=
  s.contains sep && decide (3 ≤ (pySplit sep s).length)
    && ((pySplit sep s).take 3).all (fun p => pyIsdigit (pyStrip p))

/-- The string `fallback_date` returns on a successful split: the first three
parts, stripped, zero-padded to width 2, joined with `-`. -/
def date_from_tokens (sep : Char) (s : Str) : Str :=
  match (pySplit sep s).take 3 with
  | y :: m :: d :: _ =>
    pyZfill 2 (pyStrip y) ++ [('-' : Char)] ++ pyZfill 2 (pyStrip m)
      ++ [('-' : Char)] ++ pyZfill 2 (pyStrip d)
  | _ => []

/-- Function `fallback_date` of fetch_rss.py: try splitting on `-`, then on
`/`; on failure return the current UTC date (the parameter `today`). -/
def fallback_date (today : Str) (pub_date : Str) : Str :=
  if date_tokens_ok '-' pub_date then date_from_tokens '-' pub_date
  else if date_tokens_ok '/' pub_date then date_from_tokens '/' pub_date
  else today

/-- Function `parse_pub_date` of fetch_rss.py.  `tryParse` is the permissive
`dateutil` calendar parser: `some iso` on success, `none` when it raises
`ValueError`/`OverflowError`; `today` is the current UTC date the fallback
uses.  Returns `(published_at, published_date)`. -/
def parse_pub_date (tryParse : Str → Option Str) (today : Str) (pub_date : Option Str) :
    Option Str × Option Str :=
  match pub_date with
  | none => (none, none)
  | some s =>
    if s.isEmpty then (none, none)
    else
      match tryParse s with
      | some iso => (some iso, none)
      | none => (none, some (fallback_date today s))

/-! ## Data model (schema.sql is not among the source files; defaults and
constraints below are modelled from the spec's data model, section 3) -/

/-- Row of the `items` table, the columns the core reads or writes.
Modelled from the spec: the defaults `status = 'unread'`,
`metrics_status = 'pending'` and NULL metric columns are schema.sql column
defaults; the spec's Item model states them. -/
structure ItemRow where
  id : Nat
  source_id : Nat
  title : Str
  link : Str
  creator_name : Option Str
  published_at : Option Str
  published_date : Option Str
  fingerprint : Str
  status : Str
  metrics_status : Str
  metrics_fetched_at : Option Str
  has_purechase_cta : Option Nat
  total_character_count : Option Nat
  h2_count : Option Nat
  h3_count : Option Nat
  img_count : Option Nat
  link_count : Option Nat
  p_count : Option Nat
  br_in_p_count : Option Nat
  period_count : Option Nat
  updated_at : Option Str
deriving DecidableEq

/-- Row of the `sources` table, the columns the core reads or writes. -/
structure SourceRow where
  id : Nat
  feed_url : Str
  creator_tag : Str
  is_enabled : Bool
  last_fetched_at : Option Str
deriving DecidableEq

/-- Row of the `author_rules` table. -/
structure AuthorRule where
  source_id : Nat
  creator_name : Str
  rule_type : Str
  memo : Option Str
deriving DecidableEq

/-- The database state the core touches. -/
structure IngestState where
  items : List ItemRow
  sources : List SourceRow
  author_rules : List AuthorRule
deriving DecidableEq

/-- The three columns `main` selects per enabled source
(`SELECT id, feed_url, creator_tag FROM sources WHERE is_enabled = 1`). -/
structure SourceView where
  id : Nat
  feed_url : Str
  creator_tag : Str
deriving DecidableEq

/-- Enabled sources in table order, projected to the selected columns. -/
def enabled_sources (st : IngestState) : List SourceView :=
  (st.sources.filter (fun s => s.is_enabled)).map (fun s => ⟨s.id, s.feed_url, s.creator_tag⟩)

/-- Function `load_blocked_authors` of fetch_rss.py:
`SELECT creator_name FROM author_rules WHERE source_id = ? AND rule_type = 'block'`. -/
def load_blocked_authors (rules : List AuthorRule) (source_id : Nat) : List Str :=
  (rules.filter (fun r => r.source_id == source_id && r.rule_type == ("block").data)).map
    (fun r => r.creator_name)

/-! ## Ingestion orchestrator (fetch_rss.py `process_source` and `main`) -/

/-- Next rowid for an insert into `items`; the concrete numbering decides no
claim, only that it is a function of the current rows. -/
def next_item_id (items : List ItemRow) : Nat :=
  items.foldl (fun m r => max m r.id) 0 + 1

/-- Row the `INSERT OR IGNORE INTO items` statement of `process_source`
supplies: the seven listed columns plus schema defaults for the rest. -/
def new_item (next_id source_id : Nat) (title link : Str)
    (creator_name published_at published_date : Option Str) (fp : Str) : ItemRow :=
  ⟨next_id, source_id, title, link, creator_name, published_at, published_date, fp,
   ("unread").data, ("pending").data, none, none, none, none, none, none, none, none,
   none, none, none⟩

/-- INSERT OR IGNORE INTO items keyed by the fingerprint.  Modelled from the
spec: the UNIQUE constraint on `items.fingerprint` is declared in schema.sql,
which is not among the source files; the spec states "fingerprint is unique —
re-ingesting the same canonical link is a no-op, never a duplicate row". -/
def insert_or_ignore (items : List ItemRow) (row : ItemRow) : List ItemRow :=
  if items.any (fun r => r.fingerprint == row.fingerprint) then items else items ++ [row]

/-- The data the per-entry body of `process_source` binds for the insert. -/
structure EntryRowData where
  title : Str
  link : Str
  creator_name : Option Str
  published_at : Option Str
  published_date : Option Str
  fingerprint : Str
deriving DecidableEq

/-- Per-entry body of the loop in `process_source`: extract title, link,
publication date (`pubDate`, else `published` or `updated`) and creator;
skip when title or link is falsy, skip when the creator is truthy and
blocked; else normalize the date, fingerprint the link and yield the row
to insert.  `none` means the entry inserts nothing. -/
def process_entry (tryParse : Str → Option Str) (today : Str) (sha : Str → Str)
    (blocked : List Str) (creator_tag : Str) (entry : XmlElement) : Option EntryRowData :=
  let title := text_from_child entry ("title").data
  let link := text_from_child entry ("link").data
  let pub_date := pyOr (text_from_child entry ("pubDate").data)
      (pyOr (text_from_child entry ("published").data) (text_from_child entry ("updated").data))
  if !(pyTruthy title) || !(pyTruthy link) then none
  else
    let creator_name := extract_creator_name entry creator_tag
    if pyTruthy creator_name && blocked.contains (creator_name.getD []) then none
    else
      let pd := parse_pub_date tryParse today pub_date
      some ⟨title.getD [], link.getD [], creator_name, pd.1, pd.2,
            fingerprint_for_link sha (link.getD [])⟩

/-- One loop iteration of `process_source`: insert-or-ignore the entry's row,
or leave the table unchanged when the entry is skipped. -/
def ingest_step (tryParse : Str → Option Str) (today : Str) (sha : Str → Str)
    (blocked : List Str) (creator_tag : Str) (source_id : Nat)
    (items : List ItemRow) (entry : XmlElement) : List ItemRow :=
  match process_entry tryParse today sha blocked creator_tag entry with
  | none => items
  | some d =>
    insert_or_ignore items
      (new_item (next_item_id items) source_id d.title d.link d.creator_name
        d.published_at d.published_date d.fingerprint)

/-- The whole entry loop of `process_source` over the parsed feed's entries. -/
def ingest_entries (tryParse : Str → Option Str) (today : Str) (sha : Str → Str)
    (blocked : List Str) (creator_tag : Str) (source_id : Nat)
    (items : List ItemRow) (entries : List XmlElement) : List ItemRow :=
  entries.foldl (ingest_step tryParse today sha blocked creator_tag source_id) items

/-- UPDATE sources SET last_fetched_at = ? WHERE id = ?. -/
def set_last_fetched (sources : List SourceRow) (source_id : Nat) (now_iso : Str) :
    List SourceRow :=
  sources.map (fun s => if s.id == source_id then {s with last_fetched_at := some now_iso} else s)

/-- Function `process_source` of fetch_rss.py.  `feed` is the outcome of
`fetch_feed` plus `ET.fromstring`: `some root` on success, `none` when either
raises.  On success the entries are ingested, `last_fetched_at` is set and the
transaction commits, returning `true`; on failure the except branch still sets
`last_fetched_at` (best effort) and returns `false`. -/
def process_source (tryParse : Str → Option Str) (today : Str) (sha : Str → Str)
    (now_iso : Str) (st : IngestState) (src : SourceView) (feed : Option XmlElement) :
    IngestState × Bool :=
  let blocked := load_blocked_authors st.author_rules src.id
  match feed with
  | none => ({st with sources := set_last_fetched st.sources src.id now_iso}, false)
  | some root =>
    ({st with
        items := ingest_entries tryParse today sha blocked src.creator_tag src.id st.items
          (iter_entries root),
        sources := set_last_fetched st.sources src.id now_iso}, true)

/-- The per-source loop of `main`: thread the state and accumulate
`has_error` (`true` once any source's `process_source` returned `false`). -/
def run_sources_go (tryParse : Str → Option Str) (today : Str) (sha : Str → Str)
    (now_iso : Str) (feedFor : Nat → Option XmlElement) :
    IngestState × Bool → List SourceView → IngestState × Bool
  | acc, [] => acc
  | acc, src :: rest =>
    let r := process_source tryParse today sha now_iso acc.1 src (feedFor src.id)
    run_sources_go tryParse today sha now_iso feedFor (r.1, acc.2 || !r.2) rest

/-- The per-source loop of `main` started with `has_error = False`. -/
def run_sources (tryParse : Str → Option Str) (today : Str) (sha : Str → Str)
    (now_iso : Str) (feedFor : Nat → Option XmlElement)
    (st : IngestState) (srcs : List SourceView) : IngestState × Bool :=
  run_sources_go tryParse today sha now_iso feedFor (st, false) srcs

/-! ## Metrics extractor (app/metrics.py) -/

/-- Constant NOTE_DOMAIN_PREFIX of app/metrics.py. -/
def note_domain : Str := ("https://note.com/").data

/-- Function `is_note_link` of app/metrics.py:
`link.startswith(NOTE_DOMAIN_PREFIX)` (case-sensitive). -/
def is_note_link (link : Str) : Bool := note_domain.isPrefixOf link

/-- Counts `extract_note_metrics` computes from the article body region once
the BODY_SELECTOR matched.  The CSS-selector arithmetic over the parsed HTML
(BeautifulSoup) decides no claim here and is abstracted into this record of
its results; `anchor_links` collects the four anchor sums of lines 95-98, and
`iframes` the `figure > div > div > iframe` count that seeds `link_count`. -/
structure BodyCounts where
  h2s : Nat
  h3s : Nat
  imgs : Nat
  iframes : Nat
  characters : Nat
  paragraphs : Nat
  brs : Nat
  periods : Nat
  anchor_links : Nat
deriving DecidableEq

/-- An article page as `extract_note_metrics` observes it: whether the
PAYWALL_SELECTOR matched, and the body region's counts when the
BODY_SELECTOR matched (`none` when `select_one` found nothing). -/
structure Page where
  paywall_present : Bool
  body : Option BodyCounts
deriving DecidableEq

/-- The failure `extract_note_metrics` can raise:
`ValueError("note.com article body not found")`. -/
inductive ExtractErr where
  | bodyNotFound
deriving DecidableEq

/-- The nine-field dict `extract_note_metrics` returns (the source spells the
first key `has_purechase_cta`). -/
structure MetricsDict where
  has_purechase_cta : Nat
  total_character_count : Nat
  h2_count : Nat
  h3_count : Nat
  img_count : Nat
  link_count : Nat
  p_count : Nat
  br_in_p_count : Nat
  period_count : Nat
deriving DecidableEq

/-- Function `extract_note_metrics` of app/metrics.py: raise when the body
region is missing, else assemble the nine counts
(`link_count = iframe_count + anchor sums`, `has_purechase_cta` from the
paywall element). -/
def extract_note_metrics (pg : Page) : Except ExtractErr MetricsDict :=
  match pg.body with
  | none => Except.error ExtractErr.bodyNotFound
  | some b =>
    Except.ok ⟨if pg.paywall_present then 1 else 0, b.characters, b.h2s, b.h3s, b.imgs,
      b.iframes + b.anchor_links, b.paragraphs, b.brs, b.periods⟩

/-- A Python exception escaping `process_item_metrics`. -/
inductive PyErr where
  | valueError (msg : Str)
  | other
deriving DecidableEq

/-- What `process_item_metrics` returns to its caller: the one-key paywall
dict of the soft-success branch, or the full metrics dict. -/
inductive MetricsReturn where
  | paywalledOnly
  | full (m : MetricsDict)
deriving DecidableEq

/-- UPDATE items SET metrics_status = 'failed', metrics_fetched_at = ? WHERE id = ?. -/
def mark_metrics_failed (now : Str) (items : List ItemRow) (item_id : Nat) : List ItemRow :=
  items.map (fun r =>
    if r.id == item_id then {r with metrics_status := ("failed").data, metrics_fetched_at := some now}
    else r)

/-- Function `process_item_metrics` of app/metrics.py.  `fetch` is the outcome
of `fetch_html`: `some page` on success, `none` when it raises.  The non-note
link fails fast; a fetch error marks the item failed and re-raises; the
body-not-found `ValueError` is caught and recorded as done with only
`has_purechase_cta = 1`; a full extraction persists all nine counts.  Returns
the updated item table and the returned dict or raised exception. -/
def process_item_metrics (fetch : Option Page) (now : Str) (items : List ItemRow)
    (item_id : Nat) (link : Str) : List ItemRow × Except PyErr MetricsReturn :=
  if !(is_note_link link) then
    (mark_metrics_failed now items item_id,
     Except.error (PyErr.valueError ("link is not note.com").data))
  else
    match fetch with
    | none => (mark_metrics_failed now items item_id, Except.error PyErr.other)
    | some pg =>
      match extract_note_metrics pg with
      | Except.error ExtractErr.bodyNotFound =>
        (items.map (fun r =>
          if r.id == item_id then
            {r with metrics_status := ("done").data, metrics_fetched_at := some now,
                    has_purechase_cta := some 1}
          else r),
         Except.ok MetricsReturn.paywalledOnly)
      | Except.ok m =>
        (items.map (fun r =>
          if r.id == item_id then
            {r with metrics_status := ("done").data, metrics_fetched_at := some now,
                    has_purechase_cta := some m.has_purechase_cta,
                    total_character_count := some m.total_character_count,
                    h2_count := some m.h2_count, h3_count := some m.h3_count,
                    img_count := some m.img_count, link_count := some m.link_count,
                    p_count := some m.p_count, br_in_p_count := some m.br_in_p_count,
                    period_count := some m.period_count}
          else r),
         Except.ok (MetricsReturn.full m))

/-! ## The metrics batch, retention sweep and run lock of `main` (fetch_rss.py) -/

/-- SQLite default LIKE semantics for the wildcard-free pattern
NOTE_DOMAIN_PREFIX followed by `%` (`link LIKE 'https://note.com/%'`):
prefix comparison that is case-insensitive on the ASCII range
(PRAGMA case_sensitive_like is OFF and the pattern holds no `%`/`_`
before the final `%`). -/
def like_note_match (link : Str) : Bool :=
  (note_domain.map asciiLower).isPrefixOf (link.map asciiLower)

/-- ORDER BY key of the pending-items query:
`COALESCE(published_at, published_date)`. -/
def batch_key (r : ItemRow) : Option Str :=
  match r.published_at with
  | some v => some v
  | none => r.published_date

/-- Strict "comes before" for the descending order of the pending-items
query: larger text first, NULL keys last (SQLite sorts NULL smallest). -/
def desc_before (x y : Option Str) : Bool :=
  match x, y with
  | none, _ => false
  | some _, none => true
  | some a, some b => strLE b a && !(strLE a b)

/-- Insertion step of the insertion sort realizing the ORDER BY. -/
def insert_desc (r : ItemRow) : List ItemRow → List ItemRow
  | [] => [r]
  | x :: xs => if desc_before (batch_key r) (batch_key x) then r :: x :: xs
               else x :: insert_desc r xs

/-- Insertion sort realizing `ORDER BY COALESCE(published_at, published_date)
DESC` (SQLite fixes no order among equal keys; any sort is faithful). -/
def batch_sort (l : List ItemRow) : List ItemRow := l.foldr insert_desc []

/-- The pending-items query of `main`: `metrics_status = 'pending'` and
`link LIKE 'https://note.com/%'`, ordered, `LIMIT 10`. -/
def batch_select (items : List ItemRow) : List ItemRow :=
  (batch_sort (items.filter (fun r =>
    r.metrics_status == ("pending").data && like_note_match r.link))).take 10

/-- The metrics loop of `main`: the selected rows are read first, then each is
processed in turn; an exception from `process_item_metrics` is caught and
logged, keeping the updates that call already committed. -/
def run_metrics_batch (pageFor : Nat → Option Page) (mnow : Str)
    (items : List ItemRow) : List ItemRow :=
  (batch_select items).foldl
    (fun acc it => (process_item_metrics (pageFor it.id) mnow acc it.id it.link).1) items

/-- The retention sweep of `main`: `DELETE FROM items WHERE status = 'ignored'
AND updated_at <= datetime('now', '-24 hours')`.  `cutoff` is the computed
threshold text; a NULL `updated_at` compares to NULL and the row is kept. -/
def retention_sweep (cutoff : Str) (items : List ItemRow) : List ItemRow :=
  items.filter (fun r =>
    !(r.status == ("ignored").data &&
      (match r.updated_at with
       | some u => strLE u cutoff
       | none => false)))

/-- Function `acquire_lock` of fetch_rss.py: `LOCK_FILE.touch(exist_ok=False)`
is atomic create-if-absent; it returns `False` exactly when the marker file
already exists. -/
def acquire_lock (lockExists : Bool) : Bool := !lockExists

/-- What one invocation of `main` returns and leaves behind: the integer exit
status, the database state, the URLs passed to `urlopen` (feed fetches, then
article fetches), and whether the lock marker exists afterwards. -/
structure RunResult where
  status : Nat
  state : IngestState
  fetched_urls : List Str
  lock : Bool
deriving DecidableEq

/-- Function `main` of fetch_rss.py.  When `acquire_lock` fails the run logs
and returns 0 at once: no database read or write, no fetch, and the
pre-existing marker stays.  Otherwise: process every enabled source
accumulating `has_error`, run the bounded metrics batch (each article fetched
only after `is_note_link` passes inside `process_item_metrics`), run the
retention sweep, return `1 if has_error else 0`, and release the lock in the
`finally` block. -/
def run_main (tryParse : Str → Option Str) (today : Str) (sha : Str → Str)
    (now_iso mnow cutoff : Str) (feedFor : Nat → Option XmlElement)
    (pageFor : Nat → Option Page) (lockExists : Bool) (st : IngestState) : RunResult :=
  if !(acquire_lock lockExists) then ⟨0, st, [], lockExists⟩
  else
    let enabled := enabled_sources st
    let sr := run_sources tryParse today sha now_iso feedFor st enabled
    let selected := batch_select sr.1.items
    let items2 := run_metrics_batch pageFor mnow sr.1.items
    let items3 := retention_sweep cutoff items2
    ⟨if sr.2 then 1 else 0,
     {sr.1 with items := items3},
     enabled.map (fun src => src.feed_url)
       ++ (selected.filter (fun it => is_note_link it.link)).map (fun it => it.link),
     false⟩

/-! ## The metrics endpoint `fetch_item_metrics` of app/main.py -/

/-- SQL `SELECT ... FROM items WHERE id = ?` with `fetchone()`. -/
def sql_find_item (items : List ItemRow) (item_id : Nat) : Option ItemRow :=
  items.find? (fun r => r.id == item_id)

/-- The columns `fetch_item_metrics` re-reads after computing metrics and
hands to `should_auto_block_item` as a dict. -/
structure AutoBlockView where
  source_id : Nat
  creator_name : Option Str
  total_character_count : Option Nat
  h2_count : Option Nat
  h3_count : Option Nat
  p_count : Option Nat
  br_in_p_count : Option Nat
  period_count : Option Nat
deriving DecidableEq

/-- Projection of an item row to the auto-block columns. -/
def auto_block_view (r : ItemRow) : AutoBlockView :=
  ⟨r.source_id, r.creator_name, r.total_character_count, r.h2_count, r.h3_count,
   r.p_count, r.br_in_p_count, r.period_count⟩

/-- Test whether an `author_rules` insert would collide.  Modelled from the
spec: uniqueness of `(source_id, creator_name)` is a schema.sql constraint,
not in the source files; the spec's AuthorRule model states it. -/
def has_dup_rule (rules : List AuthorRule) (sid : Nat) (c : Str) : Bool :=
  rules.any (fun r => r.source_id == sid && r.creator_name == c)

/-- The message sqlite3 raises on the duplicate author-rule insert. -/
def unique_violation_msg : Str :=
  ("UNIQUE constraint failed: author_rules.source_id, author_rules.creator_name").data

/-- Python `"UNIQUE" in str(exc)`: substring test. -/
def msg_mentions_unique (msg : Str) : Bool :=
  msg.tails.any (fun t => (("UNIQUE").data).isPrefixOf t)

/-- The plain `INSERT INTO author_rules (source_id, creator_name, rule_type)
VALUES (?, ?, 'block')` of `fetch_item_metrics`: a duplicate raises the
UNIQUE-violation message; `dbFault` injects any other failure of this one
statement (`some msg` makes it raise `msg`); else the rule is appended. -/
def author_rule_insert (rules : List AuthorRule) (sid : Nat) (c : Str)
    (dbFault : Option Str) : Except Str (List AuthorRule) :=
  if has_dup_rule rules sid c then Except.error unique_violation_msg
  else
    match dbFault with
    | some msg => Except.error msg
    | none => Except.ok (rules ++ [⟨sid, c, ("block").data, none⟩])

/-- UPDATE items SET status = 'ignored' WHERE id = ?. -/
def set_status_ignored (items : List ItemRow) (item_id : Nat) : List ItemRow :=
  items.map (fun r => if r.id == item_id then {r with status := ("ignored").data} else r)

/-- How the endpoint `fetch_item_metrics` of app/main.py ends: an
HTTPException with status code and detail, an exception propagating out of
the handler, or the `{"status": "done", "metrics": ...}` response. -/
inductive ApiOutcome where
  | httpError (code : Nat) (detail : Str)
  | raised (msg : Str)
  | ok (ret : MetricsReturn)
deriving DecidableEq

/-- Endpoint `fetch_item_metrics` of app/main.py (POST /items/id/metrics).
`should_auto_block_item` is imported from app.metrics but its definition is
not among the source files.  Modelled from the spec: the auto-block heuristic
"evaluates a fixed threshold rule over the structural counts to produce a
boolean"; it is the parameter `should_auto_block_item` here, a pure predicate
on the re-read columns.  Flow, as in the source: 404 when the item is
missing; run `process_item_metrics` (its updates commit inside); a
`ValueError` becomes 400 and any other exception 500; on success re-read the
auto-block columns and, when the creator is truthy and the predicate fires,
insert the block rule — swallowing an exception whose text mentions UNIQUE,
re-raising any other — and set the item's status to `ignored`. -/
def fetch_item_metrics (should_auto_block_item : AutoBlockView → Bool)
    (fetch : Option Page) (mnow : Str) (dbFault : Option Str)
    (st : IngestState) (item_id : Nat) : IngestState × ApiOutcome :=
  match sql_find_item st.items item_id with
  | none => (st, ApiOutcome.httpError 404 ("item not found").data)
  | some row =>
    let pr := process_item_metrics fetch mnow st.items item_id row.link
    match pr.2 with
    | Except.error (PyErr.valueError msg) =>
      ({st with items := pr.1}, ApiOutcome.httpError 400 msg)
    | Except.error PyErr.other =>
      ({st with items := pr.1}, ApiOutcome.httpError 500 ("failed to fetch metrics").data)
    | Except.ok ret =>
      match sql_find_item pr.1 item_id with
      | none => ({st with items := pr.1}, ApiOutcome.ok ret)
      | some mrow =>
        if pyTruthy mrow.creator_name
            && should_auto_block_item (auto_block_view mrow) then
          match author_rule_insert st.author_rules mrow.source_id
              (mrow.creator_name.getD []) dbFault with
          | Except.ok rules2 =>
            ({st with items := set_status_ignored pr.1 item_id, author_rules := rules2},
             ApiOutcome.ok ret)
          | Except.error msg =>
            if msg_mentions_unique msg then
              ({st with items := set_status_ignored pr.1 item_id}, ApiOutcome.ok ret)
            else ({st with items := pr.1}, ApiOutcome.raised msg)
        else ({st with items := pr.1}, ApiOutcome.ok ret)

/-! ## Spec-side definitions the corrected and refined claims compare against -/

/-- Removal of every trailing slash, written from the left as the amended C7
reads: a character survives when something after it survives, and a trailing
run of slashes is dropped. -/
def drop_trailing_slashes : Str → Str
  | [] => []
  | c :: rest =>
    match drop_trailing_slashes rest with
    | [] => if c = '/' then [] else [c]
    | r => c :: r

/-- Amended C7 canonicalization, in the spec's vocabulary: trim surrounding
whitespace, then remove every trailing `/`. -/
def canon_trim_drop_all_trailing (link : Str) : Str :=
  drop_trailing_slashes (pyStrip link)

/-- Amended C8 reading of one `link` child's contribution: its stripped text
when non-blank, else its stripped `href` attribute when present and
non-empty; `none` when the child yields nothing. -/
def link_child_yield (c : XmlElement) : Option Str :=
  match child_text_value c with
  | some v => some v
  | none => child_href_value c

/-- Claim C6's tokenization hypothesis, in the spec's vocabulary: the
separator occurs, the split has at least three tokens, and the first three
are numeric once stripped. -/
def spec_numeric_tokens (sep : Char) (s : Str) : Prop :=
  sep ∈ s ∧ 3 ≤ (pySplit sep s).length ∧
    ∀ p ∈ (pySplit sep s).take 3, pyIsdigit (pyStrip p) = true

instance (sep : Char) (s : Str) : Decidable (spec_numeric_tokens sep s) := by
  unfold spec_numeric_tokens
  infer_instance

/-- Claim C6's output, in the spec's vocabulary: the first three tokens,
stripped, zero-padded to width 2, joined as YYYY-MM-DD. -/
def spec_ymd_join (sep : Char) (s : Str) : Str :=
  pyZfill 2 (pyStrip ((pySplit sep s).getD 0 [])) ++ [('-' : Char)]
    ++ pyZfill 2 (pyStrip ((pySplit sep s).getD 1 [])) ++ [('-' : Char)]
    ++ pyZfill 2 (pyStrip ((pySplit sep s).getD 2 []))

/-! ## Concrete fixtures used by witnesses and counterexamples -/

/-- A pending note.com item awaiting metrics. -/
def wit3_item : ItemRow :=
  ⟨1, 2, ("t").data, ("https://note.com/x").data, none, none, none, ("fp1").data,
   ("unread").data, ("pending").data, none, none, none, none, none, none, none, none,
   none, none, none⟩

/-- A fetched page whose BODY_SELECTOR matched nothing. -/
def wit3_page : Page := ⟨false, none⟩

/-- A pending note.com item with a creator, for the auto-block witness. -/
def wit5_item : ItemRow :=
  ⟨1, 7, ("t").data, ("https://note.com/x").data, some (("al").data), none, none,
   ("fp5").data, ("unread").data, ("pending").data, none, none, none, none, none, none,
   none, none, none, none, none⟩

/-- State holding only `wit5_item`, with no author rules. -/
def wit5_state : IngestState := ⟨[wit5_item], [], []⟩

/-- A paywalled page whose body region matched, with small counts. -/
def wit5_page : Page := ⟨true, some ⟨0, 0, 0, 0, 5, 1, 0, 0, 0⟩⟩

/-- The metrics dict `extract_note_metrics` computes from `wit5_page`. -/
def wit5_dict : MetricsDict := ⟨1, 5, 0, 0, 0, 0, 1, 0, 0⟩

/-- A self-closing `link` element with neither text nor `href`. -/
def cex8_first : XmlElement := XmlElement.node (("link").data) [] none []

/-- A later sibling `link` element carrying a URL as text. -/
def cex8_second : XmlElement :=
  XmlElement.node (("link").data) [] (some (("https://x/1").data)) []

/-- An entry whose first `link` child yields nothing and whose second one
carries the URL. -/
def cex8_entry : XmlElement :=
  XmlElement.node (("item").data) [] none [cex8_first, cex8_second]

/-- A feed entry authored by a blocked creator. -/
def wit9_entry : XmlElement :=
  XmlElement.node (("item").data) [] none
    [XmlElement.node (("title").data) [] (some (("T").data)) [],
     XmlElement.node (("link").data) [] (some (("https://x/1").data)) [],
     XmlElement.node (("creatorName").data) [] (some (("bob").data)) []]

/-- State whose author rules block creator `bob` for source 3. -/
def wit9_state : IngestState := ⟨[], [], [⟨3, ("bob").data, ("block").data, none⟩]⟩

/-- The source the blocked entry arrives from. -/
def wit9_src : SourceView := ⟨3, ("u").data, ("note:creatorName").data⟩

/-- A pending item whose link is a note.com URL in upper case: SQLite's LIKE
matches it, Python's `startswith` does not. -/
def cex10_item : ItemRow :=
  ⟨1, 1, ("t").data, ("HTTPS://NOTE.COM/A").data, none, none, none, ("fpA").data,
   ("unread").data, ("pending").data, none, none, none, none, none, none, none, none,
   none, none, none⟩

/-- A pending item on a non-note domain, untouched by the batch. -/
def wit10_item : ItemRow :=
  ⟨1, 1, ("t").data, ("http://example.com/x").data, none, none, none, ("fpB").data,
   ("unread").data, ("pending").data, none, none, none, none, none, none, none, none,
   none, none, none⟩

/-- The row `wit5_item` after a full metrics update from `wit5_page`. -/
def wit5_item_done : ItemRow :=
  {wit5_item with
    metrics_status := ("done").data,
    metrics_fetched_at := some (("T").data),
    has_purechase_cta := some 1,
    total_character_count := some 5,
    h2_count := some 0,
    h3_count := some 0,
    img_count := some 0,
    link_count := some 0,
    p_count := some 1,
    br_in_p_count := some 0,
    period_count := some 0}

/-! ## Lemmas about the canonicalizer -/

theorem drop_trailing_append (l : Str) (c : Char) :
    drop_trailing_slashes (l ++ [c])
      = if c = '/' then drop_trailing_slashes l else l ++ [c] := by
  induction l with
  | nil => simp [drop_trailing_slashes]
  | cons a l ih =>
    have key : drop_trailing_slashes ((a :: l) ++ [c])
        = match drop_trailing_slashes (l ++ [c]) with
          | [] => if a = '/' then [] else [a]
          | r => a :: r := rfl
    rw [key, ih]
    by_cases hc : c = '/'
    · rw [if_pos hc, if_pos hc]
      rfl
    · rw [if_neg hc, if_neg hc]
      cases h : l ++ [c] with
      | nil => exact absurd h (by simp)
      | cons x xs => rw [List.cons_append, h]

theorem rstrip_eq_drop_trailing (l : Str) :
    (l.reverse.dropWhile (· == '/')).reverse = drop_trailing_slashes l := by
  induction l using List.reverseRecOn with
  | nil => rfl
  | append_singleton l c ih =>
    have hrev : (l ++ [c]).reverse = c :: l.reverse := by simp
    rw [drop_trailing_append, hrev, List.dropWhile_cons]
    by_cases hc : c = '/'
    · subst hc
      simpa using ih
    · have hb : (c == '/') = false := by simpa using hc
      simp [hb, hc]

theorem drop_trailing_of_no_slash (l : Str) (h : l.getLast? ≠ some '/') :
    drop_trailing_slashes l = l := by
  induction l using List.reverseRecOn with
  | nil => rfl
  | append_singleton l c ih =>
    have hc : c ≠ '/' := by
      intro hc
      exact h (by simp [hc, List.getLast?_concat])
    rw [drop_trailing_append, if_neg hc]

/-! ## Claim theorems: C7, C8, C4 -/

/-- C7 counterexample: the claim says a link ending in several slashes keeps
all but one of them; the code's `rstrip("/")` removes them all, so
`"https://example.com/a//"` canonicalizes to `"https://example.com/a"`, not to
`"https://example.com/a/"`. -/
theorem C7_counterexample :
    normalize_link (("https://example.com/a//").data) ≠ ("https://example.com/a/").data
      ∧ normalize_link (("https://example.com/a//").data) = ("https://example.com/a").data := by
  constructor
  · decide
  · decide

/-- C7 (amended): for every raw link string, canonicalization trims
surrounding whitespace and strips every trailing `/` character (one or many),
matching the spec-worded `canon_trim_drop_all_trailing`. -/
theorem C7_canonicalization_strips_all_trailing (link : Str) :
    normalize_link link = canon_trim_drop_all_trailing link := by
  unfold normalize_link canon_trim_drop_all_trailing
  by_cases h : (pyStrip link).getLast? = some '/'
  · rw [if_pos h]
    exact rstrip_eq_drop_trailing (pyStrip link)
  · rw [if_neg h]
    exact (drop_trailing_of_no_slash (pyStrip link) h).symm

/-- C8 counterexample: the claim says that when the first `link` child has
neither text nor `href`, the entry's link is absent and no later sibling is
consulted; the code's loop continues, so an entry whose first `link` child is
empty and whose second carries text yields that second child's URL. -/
theorem C8_counterexample :
    local_name cex8_first.tag = ("link").data ∧ cex8_first.text = none
      ∧ attr_get cex8_first.attrs (("href").data) = none
      ∧ cex8_entry.children.head? = some cex8_first
      ∧ text_from_child cex8_entry (("link").data) = some (("https://x/1").data) := by
  refine ⟨by decide, rfl, rfl, rfl, by decide⟩

/-- C8 (amended): the extracted link is the value of the first direct child
with local name `link` that yields one — its non-blank stripped text, else its
present-and-non-empty stripped `href`; matching children that yield neither
are skipped and later siblings are consulted. -/
theorem C8_link_first_yielding_child (e : XmlElement) (name : Str) :
    text_from_child e name
      = ((e.children.filter (fun c => local_name c.tag == name)).filterMap
          link_child_yield).head? := by
  unfold text_from_child
  induction e.children with
  | nil => rfl
  | cons c cs ih =>
    rw [List.filter_cons]
    by_cases hm : (local_name c.tag == name) = true
    · rw [if_pos hm, List.filterMap_cons]
      show (if local_name c.tag == name then
              match child_text_value c with
              | some v => some v
              | none =>
                match child_href_value c with
                | some v => some v
                | none => text_from_child_go name cs
            else text_from_child_go name cs) = _
      rw [if_pos hm]
      cases htv : child_text_value c with
      | some v => simp [link_child_yield, htv]
      | none =>
        cases hhv : child_href_value c with
        | some v => simp [link_child_yield, htv, hhv]
        | none =>
          simp only [link_child_yield, htv, hhv]
          exact ih
    · rw [if_neg hm]
      show (if local_name c.tag == name then
              match child_text_value c with
              | some v => some v
              | none =>
                match child_href_value c with
                | some v => some v
                | none => text_from_child_go name cs
            else text_from_child_go name cs) = _
      rw [if_neg hm]
      exact ih

/-- C4: when the lock marker already exists at invocation, the run returns
status 0, leaves the database state untouched, performs no network fetch, and
the marker (the reason: `touch(exist_ok=False)` failing) is still there;
`acquire_lock` fails exactly because the marker exists. -/
theorem C4_lock_contention_is_noop (tryParse : Str → Option Str) (today : Str)
    (sha : Str → Str) (now_iso mnow cutoff : Str) (feedFor : Nat → Option XmlElement)
    (pageFor : Nat → Option Page) (st : IngestState) :
    run_main tryParse today sha now_iso mnow cutoff feedFor pageFor true st
        = ⟨0, st, [], true⟩
      ∧ acquire_lock true = false := by
  constructor
  · rfl
  · rfl

/-! ## Lemmas about the date normalizer，and claim C6 -/

theorem pySplit_ne_nil (sep : Char) (s : Str) : pySplit sep s ≠ [] := by
  induction s with
  | nil => simp [pySplit]
  | cons c rest ih =>
    unfold pySplit
    by_cases hc : (c == sep) = true
    · simp [hc]
    · rw [if_neg hc]
      cases h : pySplit sep rest with
      | nil => simp
      | cons p ps => simp

theorem date_tokens_ok_iff (sep : Char) (s : Str) :
    date_tokens_ok sep s = true ↔ spec_numeric_tokens sep s := by
  unfold date_tokens_ok spec_numeric_tokens
  simp only [Bool.and_eq_true, List.all_eq_true, decide_eq_true_eq, List.contains]
  rw [List.elem_iff]
  exact and_assoc

theorem date_from_tokens_eq_spec (sep : Char) (s : Str)
    (h : 3 ≤ (pySplit sep s).length) :
    date_from_tokens sep s = spec_ymd_join sep s := by
  obtain ⟨y, m, d, rest, hsp⟩ : ∃ y m d rest, pySplit sep s = y :: m :: d :: rest := by
    rcases hl : pySplit sep s with _ | ⟨y, _ | ⟨m, _ | ⟨d, rest⟩⟩⟩ <;>
      first
        | exact ⟨y, m, d, rest, rfl⟩
        | (exfalso; rw [hl] at h; simp at h)
  unfold date_from_tokens spec_ymd_join
  rw [hsp]
  simp [List.getD]

/-- C6: on a date string the permissive calendar parse rejects, the normalizer
returns `published_at = None`; when some separator (`-`, tried first, else
`/`) splits it into at least three numeric tokens, `published_date` is those
first three tokens zero-padded to width 2 and joined as YYYY-MM-DD; with no
such tokenization it is the current UTC date. -/
theorem C6_date_fallback_heuristic (tryParse : Str → Option Str) (today s : Str)
    (hfail : tryParse s = none) (hne : s ≠ []) :
    (parse_pub_date tryParse today (some s)).1 = none ∧
    ((∃ sep, (sep = '-' ∨ sep = '/') ∧ spec_numeric_tokens sep s) →
      ∃ sep, (sep = '-' ∨ sep = '/') ∧ spec_numeric_tokens sep s ∧
        (parse_pub_date tryParse today (some s)).2 = some (spec_ymd_join sep s)) ∧
    ((¬ ∃ sep, (sep = '-' ∨ sep = '/') ∧ spec_numeric_tokens sep s) →
      (parse_pub_date tryParse today (some s)).2 = some today) := by
  have hie : s.isEmpty = false := by
    cases s with
    | nil => exact absurd rfl hne
    | cons a t => rfl
  have hpp : parse_pub_date tryParse today (some s)
      = (none, some (fallback_date today s)) := by
    simp [parse_pub_date, hie, hfail]
  refine ⟨by rw [hpp], ?_, ?_⟩
  · intro hex
    by_cases h1 : date_tokens_ok '-' s = true
    · refine ⟨'-', Or.inl rfl, (date_tokens_ok_iff '-' s).1 h1, ?_⟩
      rw [hpp]
      have hfb : fallback_date today s = date_from_tokens '-' s := by
        unfold fallback_date
        rw [if_pos h1]
      rw [hfb, date_from_tokens_eq_spec '-' s ((date_tokens_ok_iff '-' s).1 h1).2.1]
    · by_cases h2 : date_tokens_ok '/' s = true
      · refine ⟨'/', Or.inr rfl, (date_tokens_ok_iff '/' s).1 h2, ?_⟩
        rw [hpp]
        have hfb : fallback_date today s = date_from_tokens '/' s := by
          unfold fallback_date
          rw [if_neg h1, if_pos h2]
        rw [hfb, date_from_tokens_eq_spec '/' s ((date_tokens_ok_iff '/' s).1 h2).2.1]
      · exfalso
        obtain ⟨sep, hsep, hnum⟩ := hex
        rcases hsep with rfl | rfl
        · exact h1 ((date_tokens_ok_iff '-' s).2 hnum)
        · exact h2 ((date_tokens_ok_iff '/' s).2 hnum)
  · intro hnex
    have h1 : ¬ date_tokens_ok '-' s = true := fun h =>
      hnex ⟨'-', Or.inl rfl, (date_tokens_ok_iff '-' s).1 h⟩
    have h2 : ¬ date_tokens_ok '/' s = true := fun h =>
      hnex ⟨'/', Or.inr rfl, (date_tokens_ok_iff '/' s).1 h⟩
    rw [hpp]
    have hfb : fallback_date today s = today := by
      unfold fallback_date
      rw [if_neg h1, if_neg h2]
    rw [hfb]

/-- C6 witness: the calendar-invalid `"2024-13-40"` (the spec's own example)
goes through the token fallback and keeps its literal shape. -/
theorem C6_date_fallback_heuristic_witness :
    (parse_pub_date (fun _ => none) (("TD").data) (some (("2024-13-40").data))).2
      = some (("2024-13-40").data) := by
  have h := C6_date_fallback_heuristic (fun _ => none) (("TD").data)
    (("2024-13-40").data) rfl (by decide)
  obtain ⟨-, h2, -⟩ := h
  obtain ⟨sep, hsep, hnum, heq⟩ := h2 ⟨'-', Or.inl rfl, by decide⟩
  rcases hsep with rfl | rfl
  · exact heq.trans (by decide)
  · exact absurd hnum.1 (by decide)

/-! ## Lemmas about ingestion, and claims C1 and C9 -/

theorem mem_insert_or_ignore (items : List ItemRow) (row r : ItemRow) (h : r ∈ items) :
    r ∈ insert_or_ignore items row := by
  unfold insert_or_ignore
  split
  · exact h
  · exact List.mem_append_left _ h

theorem insert_or_ignore_has_fp (items : List ItemRow) (row : ItemRow) :
    ∃ r ∈ insert_or_ignore items row, r.fingerprint = row.fingerprint := by
  unfold insert_or_ignore
  by_cases h : items.any (fun r => r.fingerprint == row.fingerprint) = true
  · rw [if_pos h]
    obtain ⟨x, hx, hfp⟩ := List.any_eq_true.1 h
    exact ⟨x, hx, eq_of_beq hfp⟩
  · rw [if_neg h]
    exact ⟨row, List.mem_append_right _ (List.mem_singleton_self row), rfl⟩

theorem mem_ingest_step (tp : Str → Option Str) (td : Str) (sha : Str → Str)
    (bl : List Str) (ct : Str) (sid : Nat) (items : List ItemRow) (e : XmlElement)
    (r : ItemRow) (h : r ∈ items) : r ∈ ingest_step tp td sha bl ct sid items e := by
  unfold ingest_step
  cases process_entry tp td sha bl ct e with
  | none => exact h
  | some d => exact mem_insert_or_ignore _ _ _ h

theorem ingest_entries_cons (tp : Str → Option Str) (td : Str) (sha : Str → Str)
    (bl : List Str) (ct : Str) (sid : Nat) (items : List ItemRow) (e : XmlElement)
    (es : List XmlElement) :
    ingest_entries tp td sha bl ct sid items (e :: es)
      = ingest_entries tp td sha bl ct sid (ingest_step tp td sha bl ct sid items e) es := rfl

theorem mem_ingest_entries (tp : Str → Option Str) (td : Str) (sha : Str → Str)
    (bl : List Str) (ct : Str) (sid : Nat) (es : List XmlElement) (items : List ItemRow)
    (r : ItemRow) (h : r ∈ items) : r ∈ ingest_entries tp td sha bl ct sid items es := by
  induction es generalizing items with
  | nil => exact h
  | cons e es ih =>
    rw [ingest_entries_cons]
    exact ih _ (mem_ingest_step tp td sha bl ct sid items e r h)

theorem ingest_entries_has_fp (tp : Str → Option Str) (td : Str) (sha : Str → Str)
    (bl : List Str) (ct : Str) (sid : Nat) (es : List XmlElement) (items : List ItemRow)
    (e : XmlElement) (d : EntryRowData) (he : e ∈ es)
    (hpe : process_entry tp td sha bl ct e = some d) :
    ∃ r ∈ ingest_entries tp td sha bl ct sid items es, r.fingerprint = d.fingerprint := by
  induction es generalizing items with
  | nil => exact absurd he (List.not_mem_nil e)
  | cons a es ih =>
    rw [ingest_entries_cons]
    rcases List.mem_cons.1 he with rfl | hmem
    · have hstep : ingest_step tp td sha bl ct sid items e
          = insert_or_ignore items
              (new_item (next_item_id items) sid d.title d.link d.creator_name
                d.published_at d.published_date d.fingerprint) := by
        unfold ingest_step
        rw [hpe]
      obtain ⟨r, hr, hfp⟩ := insert_or_ignore_has_fp items
        (new_item (next_item_id items) sid d.title d.link d.creator_name
          d.published_at d.published_date d.fingerprint)
      rw [← hstep] at hr
      exact ⟨r, mem_ingest_entries tp td sha bl ct sid es _ r hr, hfp⟩
    · exact ih _ hmem

theorem ingest_entries_noop (tp : Str → Option Str) (td : Str) (sha : Str → Str)
    (bl : List Str) (ct : Str) (sid : Nat) (es : List XmlElement) (items : List ItemRow)
    (h : ∀ e ∈ es, ∀ d, process_entry tp td sha bl ct e = some d →
      ∃ r ∈ items, r.fingerprint = d.fingerprint) :
    ingest_entries tp td sha bl ct sid items es = items := by
  induction es with
  | nil => rfl
  | cons a es ih =>
    rw [ingest_entries_cons]
    have hstep : ingest_step tp td sha bl ct sid items a = items := by
      cases hpe : process_entry tp td sha bl ct a with
      | none =>
        unfold ingest_step
        rw [hpe]
      | some d =>
        obtain ⟨r, hr, hfp⟩ := h a (List.mem_cons_self a es) d hpe
        have hstep2 : ingest_step tp td sha bl ct sid items a
            = insert_or_ignore items
                (new_item (next_item_id items) sid d.title d.link d.creator_name
                  d.published_at d.published_date d.fingerprint) := by
          unfold ingest_step
          rw [hpe]
        have hany : (items.any fun x => x.fingerprint ==
            (new_item (next_item_id items) sid d.title d.link d.creator_name
              d.published_at d.published_date d.fingerprint).fingerprint) = true := by
          refine List.any_eq_true.2 ⟨r, hr, ?_⟩
          have hnf : (new_item (next_item_id items) sid d.title d.link d.creator_name
              d.published_at d.published_date d.fingerprint).fingerprint
                = d.fingerprint := rfl
          rw [hnf, hfp]
          exact beq_self_eq_true d.fingerprint
        rw [hstep2]
        unfold insert_or_ignore
        rw [if_pos hany]
    rw [hstep]
    exact ih (fun e he d hd => h e (List.mem_cons_of_mem a he) d hd)

theorem process_entry_fp_stable (tp1 tp2 : Str → Option Str) (td1 td2 : Str)
    (sha : Str → Str) (bl : List Str) (ct : Str) (e : XmlElement) (d2 : EntryRowData)
    (h : process_entry tp2 td2 sha bl ct e = some d2) :
    ∃ d1, process_entry tp1 td1 sha bl ct e = some d1
      ∧ d1.fingerprint = d2.fingerprint := by
  simp only [process_entry] at h ⊢
  by_cases h1 : (!(pyTruthy (text_from_child e (("title").data)))
      || !(pyTruthy (text_from_child e (("link").data)))) = true
  · rw [if_pos h1] at h
    exact absurd h (by simp)
  · rw [if_neg h1] at h ⊢
    by_cases h2 : (pyTruthy (extract_creator_name e ct)
        && bl.contains ((extract_creator_name e ct).getD [])) = true
    · rw [if_pos h2] at h
      exact absurd h (by simp)
    · rw [if_neg h2] at h ⊢
      refine ⟨_, rfl, ?_⟩
      injection h with h
      rw [← h]

/-- C1: running `process_source` a second time over the same parsed feed (the
same entry elements, any later clock or calendar-parser behaviour) leaves the
Item table exactly as the first run left it: the insert-or-ignore keyed on the
fingerprint of each entry's canonical link inserts no new row and duplicates
no existing one. -/
theorem C1_reingest_same_feed_is_noop (tp1 tp2 : Str → Option Str) (td1 td2 : Str)
    (sha : Str → Str) (n1 n2 : Str) (st : IngestState) (src : SourceView)
    (root : XmlElement) :
    (process_source tp2 td2 sha n2 (process_source tp1 td1 sha n1 st src (some root)).1
        src (some root)).1.items
      = (process_source tp1 td1 sha n1 st src (some root)).1.items := by
  show ingest_entries tp2 td2 sha (load_blocked_authors st.author_rules src.id)
      src.creator_tag src.id
      (ingest_entries tp1 td1 sha (load_blocked_authors st.author_rules src.id)
        src.creator_tag src.id st.items (iter_entries root))
      (iter_entries root)
    = ingest_entries tp1 td1 sha (load_blocked_authors st.author_rules src.id)
        src.creator_tag src.id st.items (iter_entries root)
  apply ingest_entries_noop
  intro e he d2 hpe2
  obtain ⟨d1, hpe1, hfp⟩ := process_entry_fp_stable tp1 tp2 td1 td2 sha
    (load_blocked_authors st.author_rules src.id) src.creator_tag e d2 hpe2
  obtain ⟨r, hr, hrfp⟩ := ingest_entries_has_fp tp1 td1 sha
    (load_blocked_authors st.author_rules src.id) src.creator_tag src.id
    (iter_entries root) st.items e d1 he hpe1
  exact ⟨r, hr, by rw [hrfp, hfp]⟩

theorem child_text_value_ne_nil (c : XmlElement) (v : Str)
    (h : child_text_value c = some v) : v ≠ [] := by
  cases ht : c.text with
  | none =>
    simp only [child_text_value, ht] at h
    exact absurd h (by simp)
  | some t =>
    simp only [child_text_value, ht] at h
    by_cases hcnd : (!t.isEmpty && !(pyStrip t).isEmpty) = true
    · rw [if_pos hcnd] at h
      injection h with h
      rw [← h]
      have h2 : (!(pyStrip t).isEmpty) = true := by
        simp only [Bool.and_eq_true] at hcnd
        exact hcnd.2
      intro hnil
      rw [hnil] at h2
      simp at h2
    · rw [if_neg hcnd] at h
      simp at h

theorem creator_attr_value_ne_nil (c : XmlElement) (v : Str)
    (h : creator_attr_value c = some v) : v ≠ [] := by
  cases ha : attr_get c.attrs (("name").data) with
  | none =>
    simp only [creator_attr_value, ha] at h
    exact absurd h (by simp)
  | some t =>
    simp only [creator_attr_value, ha] at h
    by_cases hcnd : (!t.isEmpty && !(pyStrip t).isEmpty) = true
    · rw [if_pos hcnd] at h
      injection h with h
      rw [← h]
      have h2 : (!(pyStrip t).isEmpty) = true := by
        simp only [Bool.and_eq_true] at hcnd
        exact hcnd.2
      intro hnil
      rw [hnil] at h2
      simp at h2
    · rw [if_neg hcnd] at h
      simp at h

theorem extract_creator_name_go_ne_nil (tn : Str) (cs : List XmlElement) (c : Str)
    (h : extract_creator_name_go tn cs = some c) : c ≠ [] := by
  induction cs with
  | nil => exact absurd h (by simp [extract_creator_name_go])
  | cons a cs ih =>
    unfold extract_creator_name_go at h
    split at h
    · cases htv : child_text_value a with
      | some v =>
        simp only [htv] at h
        injection h with h
        rw [← h]
        exact child_text_value_ne_nil a v htv
      | none =>
        simp only [htv] at h
        cases hn : text_from_child a (("name").data) with
        | some nested =>
          simp only [hn] at h
          by_cases hne : (!nested.isEmpty) = true
          · rw [if_pos hne] at h
            injection h with h
            rw [← h]
            simpa using hne
          · rw [if_neg hne] at h
            cases hav : creator_attr_value a with
            | some v =>
              simp only [hav] at h
              injection h with h
              rw [← h]
              exact creator_attr_value_ne_nil a v hav
            | none =>
              simp only [hav] at h
              exact ih h
        | none =>
          simp only [hn] at h
          cases hav : creator_attr_value a with
          | some v =>
            simp only [hav] at h
            injection h with h
            rw [← h]
            exact creator_attr_value_ne_nil a v hav
          | none =>
            simp only [hav] at h
            exact ih h
    · exact ih h

theorem extract_creator_name_ne_nil (e : XmlElement) (ct : Str) (c : Str)
    (h : extract_creator_name e ct = some c) : c ≠ [] :=
  extract_creator_name_go_ne_nil (normalize_creator_tag ct) e.children c h

/-- C9: an entry whose extracted creator matches a `block` AuthorRule for its
source is filtered before persistence: the per-entry body of `process_source`
yields no row for it, and the entry's loop iteration leaves the Item table
unchanged for every table contents — so no placeholder row exists and nothing
is ever scheduled for metrics. -/
theorem C9_blocked_author_never_inserted (tp : Str → Option Str) (today : Str)
    (sha : Str → Str) (st : IngestState) (src : SourceView) (entry : XmlElement)
    (c : Str) (hc : extract_creator_name entry src.creator_tag = some c)
    (hb : c ∈ load_blocked_authors st.author_rules src.id) :
    process_entry tp today sha (load_blocked_authors st.author_rules src.id)
        src.creator_tag entry = none
      ∧ ∀ items, ingest_step tp today sha (load_blocked_authors st.author_rules src.id)
          src.creator_tag src.id items entry = items := by
  have hcne : c ≠ [] := extract_creator_name_ne_nil entry src.creator_tag c hc
  have hnone : process_entry tp today sha (load_blocked_authors st.author_rules src.id)
      src.creator_tag entry = none := by
    simp only [process_entry]
    by_cases h1 : (!(pyTruthy (text_from_child entry (("title").data)))
        || !(pyTruthy (text_from_child entry (("link").data)))) = true
    · rw [if_pos h1]
    · rw [if_neg h1]
      have htr : pyTruthy (extract_creator_name entry src.creator_tag) = true := by
        rw [hc]
        unfold pyTruthy
        cases c with
        | nil => exact absurd rfl hcne
        | cons x xs => rfl
      have hmem : (load_blocked_authors st.author_rules src.id).contains
          ((extract_creator_name entry src.creator_tag).getD []) = true := by
        rw [hc]
        exact List.elem_iff.2 hb
      rw [if_pos (by rw [htr, hmem]; rfl)]
  refine ⟨hnone, fun items => ?_⟩
  unfold ingest_step
  rw [hnone]

/-- C9 witness: a concrete entry by creator `bob`, blocked for source 3, is
skipped and inserts nothing into an empty table. -/
theorem C9_blocked_author_never_inserted_witness :
    process_entry (fun _ => none) (("TD").data) (fun s => s)
        (load_blocked_authors wit9_state.author_rules wit9_src.id)
        wit9_src.creator_tag wit9_entry = none
      ∧ ingest_step (fun _ => none) (("TD").data) (fun s => s)
          (load_blocked_authors wit9_state.author_rules wit9_src.id)
          wit9_src.creator_tag wit9_src.id [] wit9_entry = [] := by
  have h := C9_blocked_author_never_inserted (fun _ => none) (("TD").data) (fun s => s)
    wit9_state wit9_src wit9_entry (("bob").data) (by decide) (by decide)
  exact ⟨h.1, h.2 []⟩

/-! ## Claims C3 and C5 -/

/-- C3: on a fetched note.com page whose body-region selector matches
nothing, metrics processing is a soft success: the item gets exactly
`metrics_status = 'done'`, `metrics_fetched_at = now` and
`has_purchase_cta = 1` (the source's column is spelled `has_purechase_cta`),
every other column of every row is untouched, and the caller receives the
one-key paywall dict instead of an error. -/
theorem C3_body_missing_soft_success (pg : Page) (mnow link : Str)
    (items : List ItemRow) (item_id : Nat)
    (hnote : is_note_link link = true) (hbody : pg.body = none) :
    process_item_metrics (some pg) mnow items item_id link
      = (items.map (fun r =>
          if r.id == item_id then
            {r with
              metrics_status := ("done").data,
              metrics_fetched_at := some mnow,
              has_purechase_cta := some 1}
          else r),
         Except.ok MetricsReturn.paywalledOnly) := by
  have h1 : (!(is_note_link link)) = false := by rw [hnote]; rfl
  unfold process_item_metrics
  rw [h1]
  simp only [Bool.false_eq_true, if_false, extract_note_metrics, hbody]

/-- C3 witness: a concrete pending item and a body-less page; the row keeps
all other columns and the call returns the paywall dict. -/
theorem C3_body_missing_soft_success_witness :
    process_item_metrics (some wit3_page) (("T").data) [wit3_item] 1
        (("https://note.com/x").data)
      = ([{wit3_item with
            metrics_status := ("done").data,
            metrics_fetched_at := some (("T").data),
            has_purechase_cta := some 1}],
         Except.ok MetricsReturn.paywalledOnly) := by
  have h := C3_body_missing_soft_success wit3_page (("T").data)
    (("https://note.com/x").data) [wit3_item] 1 (by decide) rfl
  exact h.trans rfl

/-- C5: when the re-read row after a successful metrics computation has a
non-empty creator and the auto-block predicate fires, the endpoint inserts the
`(source_id, creator_name, block)` AuthorRule and sets the item's status to
`ignored`; a duplicate insert is a no-op (the UNIQUE-violation message is
swallowed, the status update still happens), and an insert failure whose
message does not mention UNIQUE is re-raised with neither rule nor status
written. -/
theorem C5_auto_block_rule_and_ignore (sab : AutoBlockView → Bool) (fetch : Option Page)
    (mnow : Str) (dbFault : Option Str) (st : IngestState) (item_id : Nat)
    (r0 mrow : ItemRow) (items1 : List ItemRow) (ret : MetricsReturn) (c : Str)
    (hfind : sql_find_item st.items item_id = some r0)
    (hitems1 : (process_item_metrics fetch mnow st.items item_id r0.link).1 = items1)
    (hres : (process_item_metrics fetch mnow st.items item_id r0.link).2 = Except.ok ret)
    (hfind2 : sql_find_item items1 item_id = some mrow)
    (hc : mrow.creator_name = some c) (hcne : c ≠ [])
    (hblock : sab (auto_block_view mrow) = true) :
    (has_dup_rule st.author_rules mrow.source_id c = true →
      fetch_item_metrics sab fetch mnow dbFault st item_id
        = ({st with items := set_status_ignored items1 item_id}, ApiOutcome.ok ret)) ∧
    (has_dup_rule st.author_rules mrow.source_id c = false → dbFault = none →
      fetch_item_metrics sab fetch mnow dbFault st item_id
        = ({st with
              items := set_status_ignored items1 item_id,
              author_rules := st.author_rules
                ++ [⟨mrow.source_id, c, ("block").data, none⟩]},
           ApiOutcome.ok ret)) ∧
    (∀ msg, has_dup_rule st.author_rules mrow.source_id c = false →
      dbFault = some msg → msg_mentions_unique msg = false →
      fetch_item_metrics sab fetch mnow dbFault st item_id
        = ({st with items := items1}, ApiOutcome.raised msg)) := by
  have htr : pyTruthy mrow.creator_name = true := by
    rw [hc]
    unfold pyTruthy
    cases c with
    | nil => exact absurd rfl hcne
    | cons x xs => rfl
  have hstep : fetch_item_metrics sab fetch mnow dbFault st item_id
      = (match author_rule_insert st.author_rules mrow.source_id c dbFault with
         | Except.ok rules2 =>
           ({st with items := set_status_ignored items1 item_id, author_rules := rules2},
            ApiOutcome.ok ret)
         | Except.error msg =>
           if msg_mentions_unique msg then
             ({st with items := set_status_ignored items1 item_id}, ApiOutcome.ok ret)
           else ({st with items := items1}, ApiOutcome.raised msg)) := by
    unfold fetch_item_metrics
    rw [hfind]
    have htrc : pyTruthy (some c) = true := by
      unfold pyTruthy
      cases c with
      | nil => exact absurd rfl hcne
      | cons x xs => rfl
    simp only [hitems1, hres, hfind2, hblock, hc, Option.getD_some]
    rw [if_pos (show (pyTruthy (some c) && true) = true by rw [htrc]; rfl)]
  refine ⟨?_, ?_, ?_⟩
  · intro hdup
    rw [hstep]
    unfold author_rule_insert
    rw [if_pos hdup]
    have huniq : msg_mentions_unique unique_violation_msg = true := by decide
    simp [huniq]
  · intro hdup hnof
    rw [hstep]
    unfold author_rule_insert
    rw [if_neg (by rw [hdup]; exact Bool.false_ne_true), hnof]
  · intro msg hdup hsome hnu
    rw [hstep]
    unfold author_rule_insert
    rw [if_neg (by rw [hdup]; exact Bool.false_ne_true), hsome]
    simp only [hnu, Bool.false_eq_true, if_false]

/-- C5 witness: a concrete one-item state with no rules; the predicate fires,
the block rule for `(7, "al")` is appended and the item is ignored. -/
theorem C5_auto_block_rule_and_ignore_witness :
    fetch_item_metrics (fun _ => true) (some wit5_page) (("T").data) none wit5_state 1
      = ({wit5_state with
            items := set_status_ignored [wit5_item_done] 1,
            author_rules := wit5_state.author_rules
              ++ [⟨7, ("al").data, ("block").data, none⟩]},
         ApiOutcome.ok (MetricsReturn.full wit5_dict)) := by
  have h := C5_auto_block_rule_and_ignore (fun _ => true) (some wit5_page) (("T").data)
    none wit5_state 1 wit5_item wit5_item_done [wit5_item_done]
    (MetricsReturn.full wit5_dict) (("al").data) rfl rfl rfl rfl rfl (by decide) rfl
  exact h.2.1 rfl rfl

/-! ## Lemmas about the per-source loop, and claim C2 -/

theorem process_source_author_rules (tp : Str → Option Str) (td : Str) (sha : Str → Str)
    (n : Str) (st : IngestState) (src : SourceView) (feed : Option XmlElement) :
    (process_source tp td sha n st src feed).1.author_rules = st.author_rules := by
  cases feed <;> rfl

theorem process_source_ok (tp : Str → Option Str) (td : Str) (sha : Str → Str)
    (n : Str) (st : IngestState) (src : SourceView) (feed : Option XmlElement) :
    (process_source tp td sha n st src feed).2 = feed.isSome := by
  cases feed <;> rfl

theorem process_source_sources (tp : Str → Option Str) (td : Str) (sha : Str → Str)
    (n : Str) (st : IngestState) (src : SourceView) (feed : Option XmlElement) :
    (process_source tp td sha n st src feed).1.sources
      = set_last_fetched st.sources src.id n := by
  cases feed <;> rfl

theorem process_source_items_mono (tp : Str → Option Str) (td : Str) (sha : Str → Str)
    (n : Str) (st : IngestState) (src : SourceView) (feed : Option XmlElement)
    (r : ItemRow) (h : r ∈ st.items) :
    r ∈ (process_source tp td sha n st src feed).1.items := by
  cases feed with
  | none => exact h
  | some root =>
    exact mem_ingest_entries tp td sha (load_blocked_authors st.author_rules src.id)
      src.creator_tag src.id (iter_entries root) st.items r h

theorem run_sources_go_bool (tp : Str → Option Str) (td : Str) (sha : Str → Str)
    (n : Str) (feedFor : Nat → Option XmlElement) :
    ∀ (srcs : List SourceView) (st : IngestState) (b : Bool),
      (run_sources_go tp td sha n feedFor (st, b) srcs).2
        = (b || srcs.any (fun src => (feedFor src.id).isNone)) := by
  intro srcs
  induction srcs with
  | nil =>
    intro st b
    simp [run_sources_go]
  | cons x rest ih =>
    intro st b
    unfold run_sources_go
    rw [ih, process_source_ok]
    cases hf : feedFor x.id <;> simp [hf, Bool.or_assoc]

theorem run_sources_go_items_mono (tp : Str → Option Str) (td : Str) (sha : Str → Str)
    (n : Str) (feedFor : Nat → Option XmlElement) :
    ∀ (srcs : List SourceView) (st : IngestState) (b : Bool) (r : ItemRow),
      r ∈ st.items → r ∈ (run_sources_go tp td sha n feedFor (st, b) srcs).1.items := by
  intro srcs
  induction srcs with
  | nil =>
    intro st b r h
    exact h
  | cons x rest ih =>
    intro st b r h
    unfold run_sources_go
    exact ih _ _ r (process_source_items_mono tp td sha n st x (feedFor x.id) r h)

theorem set_last_fetched_marks (ss : List SourceRow) (sid : Nat) (n : Str) :
    ∀ srow ∈ set_last_fetched ss sid n, srow.id = sid → srow.last_fetched_at = some n := by
  intro srow hmem hid
  obtain ⟨s0, hs0, heq⟩ := List.mem_map.1 hmem
  by_cases hbeq : (s0.id == sid) = true
  · rw [if_pos hbeq] at heq
    rw [← heq]
  · rw [if_neg hbeq] at heq
    rw [← heq] at hid
    exact absurd (beq_iff_eq.2 hid) hbeq

theorem set_last_fetched_keeps (ss : List SourceRow) (sid : Nat) (n : Str) (tid : Nat)
    (h : ∀ srow ∈ ss, srow.id = tid → srow.last_fetched_at = some n) :
    ∀ srow ∈ set_last_fetched ss sid n, srow.id = tid → srow.last_fetched_at = some n := by
  intro srow hmem hid
  obtain ⟨s0, hs0, heq⟩ := List.mem_map.1 hmem
  by_cases hbeq : (s0.id == sid) = true
  · rw [if_pos hbeq] at heq
    rw [← heq]
  · rw [if_neg hbeq] at heq
    rw [← heq]
    exact h s0 hs0 (by rw [heq]; exact hid)

theorem run_sources_go_keeps (tp : Str → Option Str) (td : Str) (sha : Str → Str)
    (n : Str) (feedFor : Nat → Option XmlElement) (tid : Nat) :
    ∀ (srcs : List SourceView) (st : IngestState) (b : Bool),
      (∀ srow ∈ st.sources, srow.id = tid → srow.last_fetched_at = some n) →
      ∀ srow ∈ (run_sources_go tp td sha n feedFor (st, b) srcs).1.sources,
        srow.id = tid → srow.last_fetched_at = some n := by
  intro srcs
  induction srcs with
  | nil =>
    intro st b h
    exact h
  | cons x rest ih =>
    intro st b h
    unfold run_sources_go
    apply ih
    rw [process_source_sources]
    exact set_last_fetched_keeps st.sources x.id n tid h

theorem run_sources_go_marks (tp : Str → Option Str) (td : Str) (sha : Str → Str)
    (n : Str) (feedFor : Nat → Option XmlElement) :
    ∀ (srcs : List SourceView) (st : IngestState) (b : Bool) (src : SourceView),
      src ∈ srcs →
      ∀ srow ∈ (run_sources_go tp td sha n feedFor (st, b) srcs).1.sources,
        srow.id = src.id → srow.last_fetched_at = some n := by
  intro srcs
  induction srcs with
  | nil =>
    intro st b src h
    exact absurd h (List.not_mem_nil src)
  | cons x rest ih =>
    intro st b src hsrc
    rcases List.mem_cons.1 hsrc with rfl | hmem
    · unfold run_sources_go
      apply run_sources_go_keeps tp td sha n feedFor src.id rest
      rw [process_source_sources]
      exact set_last_fetched_marks st.sources src.id n
    · unfold run_sources_go
      exact ih _ _ src hmem

theorem run_sources_go_persist (tp : Str → Option Str) (td : Str) (sha : Str → Str)
    (n : Str) (feedFor : Nat → Option XmlElement) :
    ∀ (srcs : List SourceView) (st : IngestState) (b : Bool) (src : SourceView)
      (root e : XmlElement) (d : EntryRowData),
      src ∈ srcs → feedFor src.id = some root → e ∈ iter_entries root →
      process_entry tp td sha (load_blocked_authors st.author_rules src.id)
        src.creator_tag e = some d →
      ∃ r ∈ (run_sources_go tp td sha n feedFor (st, b) srcs).1.items,
        r.fingerprint = d.fingerprint := by
  intro srcs
  induction srcs with
  | nil =>
    intro st b src root e d h
    exact absurd h (List.not_mem_nil src)
  | cons x rest ih =>
    intro st b src root e d hsrc hfeed he hpe
    rcases List.mem_cons.1 hsrc with rfl | hmem
    · unfold run_sources_go
      rw [hfeed]
      obtain ⟨r, hr, hfp⟩ := ingest_entries_has_fp tp td sha
        (load_blocked_authors st.author_rules src.id) src.creator_tag src.id
        (iter_entries root) st.items e d he hpe
      refine ⟨r, ?_, hfp⟩
      exact run_sources_go_items_mono tp td sha n feedFor rest _ _ r hr
    · unfold run_sources_go
      apply ih _ _ src root e d hmem hfeed he
      rw [process_source_author_rules]
      exact hpe

/-- C2: with the lock free, a run attempts every enabled source and isolates
their faults — the exit status is 1 exactly when some enabled source's
fetch-or-parse failed and 0 when all succeeded; every enabled source's
`last_fetched_at` is stamped with the run's time even on failure; and every
entry a succeeding source accepted has a row with its fingerprint in the item
table at the end of the source loop (later phases update but never drop a
freshly ingested row's fingerprint). -/
theorem C2_fault_isolation_and_exit_status (tp : Str → Option Str) (today : Str)
    (sha : Str → Str) (now_iso mnow cutoff : Str) (feedFor : Nat → Option XmlElement)
    (pageFor : Nat → Option Page) (st : IngestState) :
    (run_main tp today sha now_iso mnow cutoff feedFor pageFor false st).status
        = (if (enabled_sources st).any (fun src => (feedFor src.id).isNone) then 1 else 0)
      ∧ (∀ src ∈ enabled_sources st,
          ∀ srow ∈ (run_main tp today sha now_iso mnow cutoff feedFor pageFor
              false st).state.sources,
            srow.id = src.id → srow.last_fetched_at = some now_iso)
      ∧ (∀ src ∈ enabled_sources st, ∀ root, feedFor src.id = some root →
          ∀ e ∈ iter_entries root, ∀ d,
            process_entry tp today sha (load_blocked_authors st.author_rules src.id)
              src.creator_tag e = some d →
            ∃ r ∈ (run_sources tp today sha now_iso feedFor st
                (enabled_sources st)).1.items,
              r.fingerprint = d.fingerprint) := by
  refine ⟨?_, ?_, ?_⟩
  · show (if (run_sources_go tp today sha now_iso feedFor (st, false)
        (enabled_sources st)).2 then 1 else 0) = _
    rw [run_sources_go_bool, Bool.false_or]
  · intro src hsrc srow hsrow hid
    exact run_sources_go_marks tp today sha now_iso feedFor (enabled_sources st)
      st false src hsrc srow hsrow hid
  · intro src hsrc root hroot e he d hd
    exact run_sources_go_persist tp today sha now_iso feedFor (enabled_sources st)
      st false src root e d hsrc hroot he hd

/-! ## Lemmas about the metrics batch, and claim C10 -/

theorem mem_insert_desc (r : ItemRow) (l : List ItemRow) (y : ItemRow) :
    y ∈ insert_desc r l ↔ y = r ∨ y ∈ l := by
  induction l with
  | nil => simp [insert_desc]
  | cons x xs ih =>
    unfold insert_desc
    split
    · simp [List.mem_cons]
    · simp [List.mem_cons, ih]
      tauto

theorem mem_batch_sort (l : List ItemRow) (y : ItemRow) : y ∈ batch_sort l ↔ y ∈ l := by
  induction l with
  | nil => exact Iff.rfl
  | cons x xs ih =>
    show y ∈ insert_desc x (batch_sort xs) ↔ _
    rw [mem_insert_desc, ih]
    exact (List.mem_cons).symm

theorem batch_select_spec (items : List ItemRow) :
    ∀ s ∈ batch_select items,
      s.metrics_status = ("pending").data ∧ like_note_match s.link = true ∧ s ∈ items := by
  intro s hs
  unfold batch_select at hs
  have hs2 := List.take_subset 10 _ hs
  rw [mem_batch_sort] at hs2
  obtain ⟨hmem, hp⟩ := List.mem_filter.1 hs2
  simp only [Bool.and_eq_true, beq_iff_eq] at hp
  exact ⟨hp.1, hp.2, hmem⟩

theorem map_update_get (acc : List ItemRow) (i : Nat) (r : ItemRow) (tid : Nat)
    (f : ItemRow → ItemRow) (hget : acc.get? i = some r) (hbeq : (r.id == tid) = false) :
    (acc.map (fun x => if x.id == tid then f x else x)).get? i = some r := by
  rw [List.get?_map, hget]
  show some (if r.id == tid then f r else r) = some r
  simp only [hbeq, Bool.false_eq_true, if_false]

theorem process_item_metrics_frame (fetch : Option Page) (now : Str) (acc : List ItemRow)
    (tid : Nat) (link : Str) (i : Nat) (r : ItemRow)
    (hget : acc.get? i = some r) (hid : r.id ≠ tid) :
    (process_item_metrics fetch now acc tid link).1.get? i = some r := by
  have hbeq : (r.id == tid) = false := by simpa using hid
  unfold process_item_metrics
  by_cases hn : (!(is_note_link link)) = true
  · rw [if_pos hn]
    show (mark_metrics_failed now acc tid).get? i = some r
    unfold mark_metrics_failed
    exact map_update_get acc i r tid _ hget hbeq
  · rw [if_neg hn]
    cases fetch with
    | none =>
      show (mark_metrics_failed now acc tid).get? i = some r
      unfold mark_metrics_failed
      exact map_update_get acc i r tid _ hget hbeq
    | some pg =>
      cases hex : extract_note_metrics pg with
      | error err =>
        cases err
        simp only [hex]
        exact map_update_get acc i r tid _ hget hbeq
      | ok m =>
        simp only [hex]
        exact map_update_get acc i r tid _ hget hbeq

theorem batch_fold_frame (pageFor : Nat → Option Page) (mnow : Str) :
    ∀ (sel acc : List ItemRow) (i : Nat) (r : ItemRow),
      (∀ s ∈ sel, s.id ≠ r.id) → acc.get? i = some r →
      (sel.foldl (fun acc it =>
          (process_item_metrics (pageFor it.id) mnow acc it.id it.link).1) acc).get? i
        = some r := by
  intro sel
  induction sel with
  | nil =>
    intro acc i r hne hget
    exact hget
  | cons s rest ih =>
    intro acc i r hne hget
    rw [List.foldl_cons]
    apply ih _ i r (fun t ht => hne t (List.mem_cons_of_mem s ht))
    exact process_item_metrics_frame (pageFor s.id) mnow acc s.id s.link i r hget
      (Ne.symm (hne s (List.mem_cons_self s rest)))

/-- C10 counterexample: the claim says a pending item whose link does not
start with the literal `https://note.com/` is never handed to the metrics
extractor by the batch and keeps its metrics fields.  SQLite's default LIKE is
ASCII-case-insensitive, so a pending item with link `HTTPS://NOTE.COM/A`
(which `startswith` rejects) is selected, handed to `process_item_metrics`,
and leaves the run marked `failed` via the unsupported-domain path. -/
theorem C10_counterexample :
    cex10_item.metrics_status = ("pending").data
      ∧ is_note_link cex10_item.link = false
      ∧ (run_metrics_batch (fun _ => none) (("T").data) [cex10_item]).map
          (fun r => r.metrics_status) = [("failed").data] := by
  refine ⟨rfl, by decide, by decide⟩

/-- C10 (amended): the batch selects only pending items whose link matches
`https://note.com/%` under SQLite's ASCII-case-insensitive LIKE, and a pending
item whose link does not match even case-insensitively is left entirely
unchanged by a batch run (its row survives at its position untouched); a
selected item whose link differs from the prefix only in ASCII case reaches
the extractor's unsupported-domain path, as the counterexample shows. -/
theorem C10_batch_prefix_frame (pageFor : Nat → Option Page) (mnow : Str)
    (items : List ItemRow) (r : ItemRow) (i : Nat)
    (hnodup : (items.map (fun x => x.id)).Nodup)
    (hi : items.get? i = some r)
    (hlike : like_note_match r.link = false) :
    (∀ s ∈ batch_select items,
        s.metrics_status = ("pending").data ∧ like_note_match s.link = true)
      ∧ (run_metrics_batch pageFor mnow items).get? i = some r := by
  have hrmem : r ∈ items := List.get?_mem hi
  refine ⟨fun s hs => ⟨(batch_select_spec items s hs).1, (batch_select_spec items s hs).2.1⟩, ?_⟩
  unfold run_metrics_batch
  apply batch_fold_frame pageFor mnow (batch_select items) items i r ?_ hi
  intro s hs heq
  obtain ⟨hp, hl, hsmem⟩ := batch_select_spec items s hs
  have hsr : s = r := List.inj_on_of_nodup_map hnodup hsmem hrmem heq
  rw [hsr, hlike] at hl
  exact Bool.false_ne_true hl

/-- C10 witness: a run over a single pending item on another domain leaves its
row untouched at position 0. -/
theorem C10_batch_prefix_frame_witness :
    (∀ s ∈ batch_select [wit10_item],
        s.metrics_status = ("pending").data ∧ like_note_match s.link = true)
      ∧ (run_metrics_batch (fun _ => none) (("T").data) [wit10_item]).get? 0
          = some wit10_item := by
  exact C10_batch_prefix_frame (fun _ => none) (("T").data) [wit10_item] wit10_item 0
    (by decide) rfl (by decide)

end RssReader
